import Mathlib

/-!
Verification of the stack-based tree builder in `src/macros.rs`.

The builder keeps a LIFO stack of in-progress nodes (`Vec<VNode<MSG>>` in the
source).  The helper functions `unpack`, `set_value`, `add_attribute`,
`attach_class`, `attach_listener`, `add_child` and `child_to_parent` are
embedded below.  Rust's `Vec` used as a stack pushes, pops and reads
(`last_mut`) at its end; we represent the stack as a `List` with the top at
the head (Vec index `i` corresponds to list index `len - 1 - i`), so
`push` is `cons`, `pop`/`last_mut` act on the head and `is_empty`/`len`
are `List.isEmpty`/`List.length`.

The node type `VNode`, the child type `Child` and the node-level mutation
methods live in the crate's `html` module, which is not part of the sources
at hand; they are modelled from the specification (see the doc comments
marked `Modelled from the spec`).  Rust panics are embedded as explicit
error outcomes; `child_to_parent` mutates the stack in place through
`&mut` before it can panic, so its embedding returns the stack state
together with an optional error.
-/

namespace Yew

mutual

/-- Modelled from the spec (the `html` module is not among the sources):
a node holds `tag`, `attributes` (ordered string map, insertion order
preserved, last write wins), `classes` (ordered list, duplicates kept),
`value` (optional, last write wins), `listeners` (ordered list) and
`children` (ordered list of `Child`).  `L` is the type-erased listener
type, `E` the application-defined type of injected content. -/
inductive VNode (L E : Type) : Type where
  | mk : String → List (String × String) → List String → Option String →
      List L → List (Child L E) → VNode L E

/-- Modelled from the spec: a child is either a nested node or an opaque
externally supplied value (the source's `Child::VNode` variant appears in
`child_to_parent`). -/
inductive Child (L E : Type) : Type where
  | vnode : VNode L E → Child L E
  | external : E → Child L E

end

variable {L E : Type}

/-- Tag accessor (`node.tag()` in the source). -/
def VNode.tag : VNode L E → String
  | .mk t _ _ _ _ _ => t

/-- Attribute list accessor. -/
def VNode.attributes : VNode L E → List (String × String)
  | .mk _ a _ _ _ _ => a

/-- Class list accessor. -/
def VNode.classes : VNode L E → List String
  | .mk _ _ c _ _ _ => c

/-- Value accessor. -/
def VNode.value : VNode L E → Option String
  | .mk _ _ _ v _ _ => v

/-- Listener list accessor. -/
def VNode.listeners : VNode L E → List L
  | .mk _ _ _ _ l _ => l

/-- Children accessor. -/
def VNode.children : VNode L E → List (Child L E)
  | .mk _ _ _ _ _ c => c

/-- Modelled from the spec: `VNode::new(tag)` creates an empty node with the
given tag (used by the macro's opening-tag rule). -/
def VNode.new (tag : String) : VNode L E :=
  .mk tag [] [] none [] []

/-- Modelled from the spec: `set_value` overwrites the optional value, last
write wins, no accumulation. -/
def VNode.set_value (n : VNode L E) (v : String) : VNode L E :=
  match n with
  | .mk t a c _ l ch => .mk t a c (some v) l ch

/-- Modelled from the spec: ordered-mapping insertion — a repeated name
overwrites in place (insertion order preserved, last write wins), a fresh
name is appended. -/
def attrInsert (attrs : List (String × String)) (name v : String) :
    List (String × String) :=
  if attrs.any (fun p => p.1 = name) then
    attrs.map (fun p => if p.1 = name then (name, v) else p)
  else
    attrs ++ [(name, v)]

/-- Modelled from the spec: `add_attribute` inserts or overwrites one
attribute with mapping semantics. -/
def VNode.add_attribute (n : VNode L E) (name v : String) : VNode L E :=
  match n with
  | .mk t a c vv l ch => .mk t (attrInsert a name v) c vv l ch

/-- Modelled from the spec: `add_classes` appends one class string to the
ordered class list; duplicates are not deduplicated. -/
def VNode.add_classes (n : VNode L E) (c : String) : VNode L E :=
  match n with
  | .mk t a cs v l ch => .mk t a (cs ++ [c]) v l ch

/-- Modelled from the spec: `add_listener` appends to the listener list,
preserving attachment order. -/
def VNode.add_listener (n : VNode L E) (l : L) : VNode L E :=
  match n with
  | .mk t a c v ls ch => .mk t a c v (ls ++ [l]) ch

/-- Modelled from the spec: `add_child` appends one child, in call order. -/
def VNode.add_child (n : VNode L E) (c : Child L E) : VNode L E :=
  match n with
  | .mk t a cs v l ch => .mk t a cs v l (ch ++ [c])

/-- The builder stack (`type Stack<MSG> = Vec<VNode<MSG>>`), top at the
head of the list. -/
abbrev Stack (L E : Type) := List (VNode L E)

/-- The four fatal misuse outcomes; each Rust `panic!` in `macros.rs` maps
to one of them (`TagMismatch` carries the open and close tags that the
source interpolates into its message). -/
inductive BuildError : Type where
  | emptyStack : BuildError
  | unbalancedClose : BuildError
  | tagMismatch : String → String → BuildError
  | malformedTree : BuildError
deriving DecidableEq

/-- `unpack` (the `finish` operation): panics unless exactly one element is
in the stack, otherwise pops and returns it. -/
def unpack : Stack L E → Except BuildError (VNode L E)
  | [n] => .ok n
  | _ => .error .malformedTree

/-- `set_value`: mutates the stack top, panics on an empty stack. -/
def set_value (stack : Stack L E) (value : String) :
    Except BuildError (Stack L E) :=
  match stack with
  | node :: rest => .ok (node.set_value value :: rest)
  | [] => .error .emptyStack

/-- `add_attribute`: mutates the stack top, panics on an empty stack. -/
def add_attribute (stack : Stack L E) (name value : String) :
    Except BuildError (Stack L E) :=
  match stack with
  | node :: rest => .ok (node.add_attribute name value :: rest)
  | [] => .error .emptyStack

/-- `attach_class`: mutates the stack top, panics on an empty stack. -/
def attach_class (stack : Stack L E) (c : String) :
    Except BuildError (Stack L E) :=
  match stack with
  | node :: rest => .ok (node.add_classes c :: rest)
  | [] => .error .emptyStack

/-- `attach_listener`: mutates the stack top, panics on an empty stack. -/
def attach_listener (stack : Stack L E) (l : L) :
    Except BuildError (Stack L E) :=
  match stack with
  | node :: rest => .ok (node.add_listener l :: rest)
  | [] => .error .emptyStack

/-- `add_child`: mutates the stack top, panics on an empty stack. -/
def add_child (stack : Stack L E) (c : Child L E) :
    Except BuildError (Stack L E) :=
  match stack with
  | node :: rest => .ok (node.add_child c :: rest)
  | [] => .error .emptyStack

/-- The attach-or-retain step at the end of `child_to_parent`: with a
non-empty remainder the popped node becomes the last child of the new top
(`stack.last_mut().unwrap().add_child(Child::VNode(node))`), otherwise it
is pushed back (`stack.push(node)`). -/
def attachOrKeep (node : VNode L E) : Stack L E → Stack L E
  | parent :: rest => parent.add_child (.vnode node) :: rest
  | [] => [node]

/-- `child_to_parent`: pops the top (panicking if the stack is already
empty), then — only for an explicit close — compares the popped node's tag
with the close tag and panics on mismatch, then attaches or retains the
popped node.  The function takes the stack by `&mut` and pops before the
tag check, so the embedding returns the stack state reached together with
the optional fatal error. -/
def child_to_parent (stack : Stack L E) (endtag : Option String) :
    Stack L E × Option BuildError :=
  match stack with
  | [] => ([], some .unbalancedClose)
  | node :: rest =>
    match endtag with
    | some endt =>
      if node.tag = endt then
        (attachOrKeep node rest, none)
      else
        (rest, some (.tagMismatch node.tag endt))
    | none => (attachOrKeep node rest, none)

/-- A close operation as an all-or-error outcome (the panic aborts the
whole construction, so no stack survives an error). -/
def close (stack : Stack L E) (endtag : Option String) :
    Except BuildError (Stack L E) :=
  match child_to_parent stack endtag with
  | (s, none) => .ok s
  | (_, some e) => .error e

/-- The primitive operations the macro front end can emit, one constructor
per rewrite rule of `html_impl!` that touches the stack. -/
inductive Op (L E : Type) : Type where
  | openTag : String → Op L E
  | setValue : String → Op L E
  | addAttribute : String → String → Op L E
  | addClass : String → Op L E
  | addListener : L → Op L E
  | addChild : Child L E → Op L E
  | closeSelf : Op L E
  | closeTagged : String → Op L E

/-- One step of the builder: dispatches an operation to the helper the
corresponding macro rule calls (`open` pushes `VNode::new(tag)`). -/
def runOp (stack : Stack L E) : Op L E → Except BuildError (Stack L E)
  | .openTag t => .ok (VNode.new t :: stack)
  | .setValue v => set_value stack v
  | .addAttribute n v => add_attribute stack n v
  | .addClass c => attach_class stack c
  | .addListener l => attach_listener stack l
  | .addChild c => add_child stack c
  | .closeSelf => close stack none
  | .closeTagged t => close stack (some t)

/-- Runs a whole operation sequence from a given stack; the first fatal
error aborts the run, as a Rust panic would. -/
def runAll (stack : Stack L E) : List (Op L E) → Except BuildError (Stack L E)
  | [] => .ok stack
  | op :: ops =>
    match runOp stack op with
    | .ok s => runAll s ops
    | .error e => .error e

/-- The `{ for expression }` macro rule: eagerly iterates the sequence and
calls `add_child` on each produced child, in production order (a panic
inside the loop stops the iteration). -/
def add_children (stack : Stack L E) :
    List (Child L E) → Except BuildError (Stack L E)
  | [] => .ok stack
  | c :: cs =>
    match add_child stack c with
    | .ok s => add_children s cs
    | .error e => .error e

mutual

/-- Total node count of a tree: one for the node itself plus the nodes
nested (recursively) in its children. -/
def VNode.count : VNode L E → Nat
  | .mk _ _ _ _ _ cs => 1 + countChildren cs

/-- Total node count contributed by a list of children. -/
def countChildren : List (Child L E) → Nat
  | [] => 0
  | c :: cs => Child.count c + countChildren cs

/-- Node count of a child: an external child contributes no nodes. -/
def Child.count : Child L E → Nat
  | .vnode n => VNode.count n
  | .external _ => 0

end

/-- Sum of the node counts of all stack elements. -/
def stackCount : Stack L E → Nat
  | [] => 0
  | n :: rest => n.count + stackCount rest

/-- Number of `openTag` operations in a sequence. -/
def countOpens : List (Op L E) → Nat
  | [] => 0
  | .openTag _ :: ops => 1 + countOpens ops
  | _ :: ops => countOpens ops

/-- Holds when an operation, if it is an `addChild`, injects an external
(non-node) child. -/
def Op.childExt : Op L E → Bool
  | .addChild (.vnode _) => false
  | _ => true

/-- The operations the claims call "mutation operations": every stack
operation other than `open`, the two closes and `finish`. -/
def Op.isMutation : Op L E → Bool
  | .setValue _ => true
  | .addAttribute _ _ => true
  | .addClass _ => true
  | .addListener _ => true
  | .addChild _ => true
  | _ => false

/-- Holds for the two close operations. -/
def Op.isClose : Op L E → Bool
  | .closeSelf => true
  | .closeTagged _ => true
  | _ => false

/-- Appending a child appends to the children list. -/
theorem VNode.children_add_child (n : VNode L E) (c : Child L E) :
    (n.add_child c).children = n.children ++ [c] := by
  cases n; rfl

/-- The tag survives `add_child`. -/
theorem VNode.tag_add_child (n : VNode L E) (c : Child L E) :
    (n.add_child c).tag = n.tag := by
  cases n; rfl

/-- A close on an empty stack fails with the unbalanced-close error. -/
theorem close_empty (endtag : Option String) :
    close ([] : Stack L E) endtag = .error .unbalancedClose := rfl

/-- A close on a non-empty stack without an end tag always succeeds. -/
theorem close_cons_none (node : VNode L E) (rest : Stack L E) :
    close (node :: rest) none = .ok (attachOrKeep node rest) := rfl

/-- A close on a non-empty stack with a matching end tag succeeds. -/
theorem close_cons_some_eq (node : VNode L E) (rest : Stack L E) (t : String)
    (h : node.tag = t) :
    close (node :: rest) (some t) = .ok (attachOrKeep node rest) := by
  simp [close, child_to_parent, h]

/-- A close on a non-empty stack with a mismatched end tag fails. -/
theorem close_cons_some_ne (node : VNode L E) (rest : Stack L E) (t : String)
    (h : node.tag ≠ t) :
    close (node :: rest) (some t) = .error (.tagMismatch node.tag t) := by
  simp [close, child_to_parent, h]

/-- Successive `add_child` calls on a non-empty stack succeed and append
exactly the given children, in order, to the top node, leaving the rest of
the stack untouched. -/
theorem add_children_ok (cs : List (Child L E)) :
    ∀ (node : VNode L E) (rest : Stack L E),
      ∃ top, add_children (node :: rest) cs = .ok (top :: rest) ∧
        top.children = node.children ++ cs := by
  induction cs with
  | nil =>
    intro node rest
    exact ⟨node, rfl, by simp⟩
  | cons c cs ih =>
    intro node rest
    obtain ⟨top, h1, h2⟩ := ih (node.add_child c) rest
    refine ⟨top, h1, ?_⟩
    rw [h2, VNode.children_add_child]
    simp

/-- C7: the `{ for … }` embedding is equivalent to the corresponding
sequence of individual `addChild` operations run in production order: both
produce the same final stack or the same error. -/
theorem C7_add_children_refines_add_child :
    ∀ (cs : List (Child L E)) (s : Stack L E),
      add_children s cs = runAll s (cs.map Op.addChild) := by
  intro cs
  induction cs with
  | nil => intro s; rfl
  | cons c cs ih =>
    intro s
    cases s with
    | nil => rfl
    | cons node rest => exact ih (node.add_child c :: rest)

/-- C9: `open` always succeeds and grows the stack by one; a successful
mutation preserves the length; a successful close either acts on the sole
element and leaves the length at 1, or shrinks a longer stack by exactly
one; hence no successful operation ever empties a non-empty stack. -/
theorem C9_nonempty_stack_preserved :
    (∀ (t : String) (s : Stack L E),
      runOp s (.openTag t) = .ok (VNode.new t :: s)) ∧
    (∀ (op : Op L E) (s s' : Stack L E), op.isMutation = true →
      runOp s op = .ok s' → s'.length = s.length) ∧
    (∀ (op : Op L E) (s s' : Stack L E), op.isClose = true →
      runOp s op = .ok s' →
      (s.length = 1 ∧ s'.length = 1) ∨
        (2 ≤ s.length ∧ s'.length = s.length - 1)) ∧
    (∀ (op : Op L E) (s s' : Stack L E), s ≠ [] →
      runOp s op = .ok s' → s' ≠ []) := by
  have hclose : ∀ (node : VNode L E) (rest : Stack L E) (endtag : Option String)
      (s' : Stack L E), close (node :: rest) endtag = .ok s' →
      s' = attachOrKeep node rest := by
    intro node rest endtag s' h
    cases endtag with
    | none => exact Except.ok.inj h.symm
    | some t =>
      by_cases ht : node.tag = t
      · rw [close_cons_some_eq node rest t ht] at h
        exact Except.ok.inj h.symm
      · rw [close_cons_some_ne node rest t ht] at h
        exact absurd h (by simp)
  have hmut : ∀ (op : Op L E) (s s' : Stack L E), op.isMutation = true →
      runOp s op = .ok s' → s'.length = s.length := by
    intro op s s' hm h
    cases op with
    | openTag t => simp [Op.isMutation] at hm
    | closeSelf => simp [Op.isMutation] at hm
    | closeTagged t => simp [Op.isMutation] at hm
    | setValue v =>
      cases s with
      | nil => simp [runOp, set_value] at h
      | cons node rest =>
        simp only [runOp, set_value, Except.ok.injEq] at h
        rw [← h]; simp
    | addAttribute n v =>
      cases s with
      | nil => simp [runOp, add_attribute] at h
      | cons node rest =>
        simp only [runOp, add_attribute, Except.ok.injEq] at h
        rw [← h]; simp
    | addClass c =>
      cases s with
      | nil => simp [runOp, attach_class] at h
      | cons node rest =>
        simp only [runOp, attach_class, Except.ok.injEq] at h
        rw [← h]; simp
    | addListener l =>
      cases s with
      | nil => simp [runOp, attach_listener] at h
      | cons node rest =>
        simp only [runOp, attach_listener, Except.ok.injEq] at h
        rw [← h]; simp
    | addChild c =>
      cases s with
      | nil => simp [runOp, add_child] at h
      | cons node rest =>
        simp only [runOp, add_child, Except.ok.injEq] at h
        rw [← h]; simp
  have hcloseLen : ∀ (op : Op L E) (s s' : Stack L E), op.isClose = true →
      runOp s op = .ok s' →
      (s.length = 1 ∧ s'.length = 1) ∨
        (2 ≤ s.length ∧ s'.length = s.length - 1) := by
    intro op s s' hc h
    have hend : ∃ endtag, runOp s op = close s endtag := by
      cases op with
      | closeSelf => exact ⟨none, rfl⟩
      | closeTagged t => exact ⟨some t, rfl⟩
      | openTag t => simp [Op.isClose] at hc
      | setValue v => simp [Op.isClose] at hc
      | addAttribute n v => simp [Op.isClose] at hc
      | addClass c => simp [Op.isClose] at hc
      | addListener l => simp [Op.isClose] at hc
      | addChild c => simp [Op.isClose] at hc
    obtain ⟨endtag, he⟩ := hend
    rw [he] at h
    cases s with
    | nil =>
      rw [close_empty endtag] at h
      exact absurd h (by simp)
    | cons node rest =>
      have hs' := hclose node rest endtag s' h
      subst hs'
      cases rest with
      | nil => exact Or.inl ⟨rfl, rfl⟩
      | cons parent rest2 =>
        exact Or.inr ⟨by simp [Nat.succ_le_succ, Nat.le_add_left],
          by simp [attachOrKeep]⟩
  refine ⟨fun _ _ => rfl, hmut, hcloseLen, ?_⟩
  intro op s s' hne h
  cases op with
  | openTag t =>
    simp only [runOp, Except.ok.injEq] at h
    rw [← h]; simp
  | closeSelf =>
    cases s with
    | nil => exact absurd rfl hne
    | cons node rest =>
      have hs' := hclose node rest none s' h
      subst hs'
      cases rest <;> simp [attachOrKeep]
  | closeTagged t =>
    cases s with
    | nil => exact absurd rfl hne
    | cons node rest =>
      have hs' := hclose node rest (some t) s' h
      subst hs'
      cases rest <;> simp [attachOrKeep]
  | setValue v =>
    cases s with
    | nil => exact absurd rfl hne
    | cons node rest =>
      simp only [runOp, set_value, Except.ok.injEq] at h
      rw [← h]; simp
  | addAttribute n v =>
    cases s with
    | nil => exact absurd rfl hne
    | cons node rest =>
      simp only [runOp, add_attribute, Except.ok.injEq] at h
      rw [← h]; simp
  | addClass c =>
    cases s with
    | nil => exact absurd rfl hne
    | cons node rest =>
      simp only [runOp, attach_class, Except.ok.injEq] at h
      rw [← h]; simp
  | addListener l =>
    cases s with
    | nil => exact absurd rfl hne
    | cons node rest =>
      simp only [runOp, attach_listener, Except.ok.injEq] at h
      rw [← h]; simp
  | addChild c =>
    cases s with
    | nil => exact absurd rfl hne
    | cons node rest =>
      simp only [runOp, add_child, Except.ok.injEq] at h
      rw [← h]; simp

/-- Witness for C9 at concrete inputs: a `setValue` on a singleton stack
preserves the length and leaves the stack non-empty, and a `closeSelf` on
a singleton stack keeps the length at 1. -/
theorem C9_nonempty_stack_preserved_witness :
    ([(VNode.new "a" : VNode Unit Unit).set_value "x"].length =
      [(VNode.new "a" : VNode Unit Unit)].length) ∧
    ([(VNode.new "a" : VNode Unit Unit)].length = 1 ∧
        ([(VNode.new "a" : VNode Unit Unit)].length = 1) ∨
      (2 ≤ [(VNode.new "a" : VNode Unit Unit)].length ∧
        [(VNode.new "a" : VNode Unit Unit)].length =
          [(VNode.new "a" : VNode Unit Unit)].length - 1)) ∧
    ([(VNode.new "a" : VNode Unit Unit).set_value "x"] ≠ []) :=
  ⟨C9_nonempty_stack_preserved.2.1 (Op.setValue "x") [VNode.new "a"]
      [(VNode.new "a").set_value "x"] rfl rfl,
   C9_nonempty_stack_preserved.2.2.1 (Op.closeSelf : Op Unit Unit)
      [VNode.new "a"] [VNode.new "a"] rfl rfl,
   C9_nonempty_stack_preserved.2.2.2 (Op.setValue "x") [VNode.new "a"]
      [(VNode.new "a").set_value "x"] (by simp) rfl⟩

/-- C2: `finish` (`unpack`) returns the sole element of a one-element
stack, and fails with `MalformedTreeError` on an empty stack and on any
stack of two or more elements, returning no tree in either failure. -/
theorem C2_finish_requires_single_root :
    (∀ (n : VNode L E), unpack [n] = .ok n) ∧
    (unpack ([] : Stack L E) = .error .malformedTree) ∧
    (∀ (n m : VNode L E) (rest : Stack L E),
      unpack (n :: m :: rest) = .error .malformedTree) :=
  ⟨fun _ => rfl, rfl, fun _ _ _ => rfl⟩

/-- C4: each of `set_value`, `add_attribute`, `attach_class`,
`attach_listener` and `add_child` fails with `EmptyStackError` exactly
when the stack is empty; on a non-empty stack each succeeds and rewrites
only the stack-top node, leaving the rest of the stack unchanged. -/
theorem C4_mutations_require_open_element :
    (∀ v, set_value ([] : Stack L E) v = .error .emptyStack) ∧
    (∀ (node : VNode L E) rest v,
      set_value (node :: rest) v = .ok (node.set_value v :: rest)) ∧
    (∀ name v, add_attribute ([] : Stack L E) name v = .error .emptyStack) ∧
    (∀ (node : VNode L E) rest name v,
      add_attribute (node :: rest) name v =
        .ok (node.add_attribute name v :: rest)) ∧
    (∀ c, attach_class ([] : Stack L E) c = .error .emptyStack) ∧
    (∀ (node : VNode L E) rest c,
      attach_class (node :: rest) c = .ok (node.add_classes c :: rest)) ∧
    (∀ (l : L), attach_listener ([] : Stack L E) l = .error .emptyStack) ∧
    (∀ (node : VNode L E) rest l,
      attach_listener (node :: rest) l = .ok (node.add_listener l :: rest)) ∧
    (∀ (c : Child L E), add_child [] c = .error .emptyStack) ∧
    (∀ (node : VNode L E) rest c,
      add_child (node :: rest) c = .ok (node.add_child c :: rest)) :=
  ⟨fun _ => rfl, fun _ _ _ => rfl, fun _ _ => rfl, fun _ _ _ _ => rfl,
   fun _ => rfl, fun _ _ _ => rfl, fun _ => rfl, fun _ _ _ => rfl,
   fun _ => rfl, fun _ _ _ => rfl⟩

/-- C5: on an empty stack both close forms fail with
`UnbalancedCloseError`, whatever the close tag; on a non-empty stack no
close form ever fails with `UnbalancedCloseError`. -/
theorem C5_unbalanced_close_iff_empty :
    (∀ endtag, close ([] : Stack L E) endtag = .error .unbalancedClose) ∧
    (∀ (node : VNode L E) rest endtag,
      close (node :: rest) endtag ≠ .error .unbalancedClose) := by
  constructor
  · intro endtag; rfl
  · intro node rest endtag
    cases endtag with
    | none => simp [close, child_to_parent]
    | some e =>
      by_cases h : node.tag = e
      · simp [close, child_to_parent, h]
      · simp [close, child_to_parent, h]

/-- C3: closing a non-empty stack with an explicit tag fails with
`TagMismatchError(openTag, closeTag)` exactly when the top node's creation
tag differs from the close tag, and succeeds when they agree; in
particular `open("div"); closeTagged("span")` fails with
`TagMismatchError("div","span")`. -/
theorem C3_close_tagged_tag_check :
    (∀ (node : VNode L E) rest tagName, node.tag ≠ tagName →
      close (node :: rest) (some tagName) =
        .error (.tagMismatch node.tag tagName)) ∧
    (∀ (node : VNode L E) rest tagName, node.tag = tagName →
      close (node :: rest) (some tagName) =
        .ok (attachOrKeep node rest)) ∧
    (close [(VNode.new "div" : VNode Unit Unit)] (some "span") =
      .error (.tagMismatch "div" "span")) := by
  refine ⟨?_, ?_, rfl⟩
  · intro node rest tagName h
    simp [close, child_to_parent, h]
  · intro node rest tagName h
    simp [close, child_to_parent, h]

/-- Witness for C3 at concrete inputs: a "div" node closed as "html"
mismatches, and closed as "div" succeeds. -/
theorem C3_close_tagged_tag_check_witness :
    close [(VNode.new "div" : VNode Unit Unit)] (some "html") =
      .error (.tagMismatch "div" "html") ∧
    close [(VNode.new "div" : VNode Unit Unit)] (some "div") =
      .ok (attachOrKeep (VNode.new "div") []) :=
  ⟨C3_close_tagged_tag_check.1 (VNode.new "div") [] "html" (by decide),
   C3_close_tagged_tag_check.2.1 (VNode.new "div") [] "div" rfl⟩

/-- C6: a successful close pops the top node; with a non-empty remainder
the popped node is appended as the last child of the new top (after all
children that node already had), and with an empty remainder the popped
node is pushed back as the sole stack element. -/
theorem C6_close_attach_or_retain :
    (∀ (node parent : VNode L E) rest,
      close (node :: parent :: rest) none =
        .ok (parent.add_child (.vnode node) :: rest)) ∧
    (∀ (node : VNode L E), close [node] none = .ok [node]) ∧
    (∀ (node parent : VNode L E) rest t, node.tag = t →
      close (node :: parent :: rest) (some t) =
        .ok (parent.add_child (.vnode node) :: rest)) ∧
    (∀ (node : VNode L E) t, node.tag = t → close [node] (some t) = .ok [node]) ∧
    (∀ (parent node : VNode L E),
      (parent.add_child (.vnode node)).children =
        parent.children ++ [.vnode node]) := by
  refine ⟨fun _ _ _ => rfl, fun _ => rfl, ?_, ?_, ?_⟩
  · intro node parent rest t h
    simp [close, child_to_parent, attachOrKeep, h]
  · intro node t h
    simp [close, child_to_parent, attachOrKeep, h]
  · intro parent node
    cases parent with
    | mk tg a c v l ch => rfl

/-- Witness for C6 at concrete inputs: a tagged close of a "b" node over a
"p" parent attaches it, and over an empty remainder retains it. -/
theorem C6_close_attach_or_retain_witness :
    close [(VNode.new "b" : VNode Unit Unit), VNode.new "p"] (some "b") =
      .ok [(VNode.new "p").add_child (.vnode (VNode.new "b"))] ∧
    close [(VNode.new "b" : VNode Unit Unit)] (some "b") =
      .ok [VNode.new "b"] :=
  ⟨C6_close_attach_or_retain.2.2.1 (VNode.new "b") (VNode.new "p") [] "b" rfl,
   C6_close_attach_or_retain.2.2.2.1 (VNode.new "b") "b" rfl⟩

/-- C10: `child_to_parent` pops through `&mut` before the tag check, so at
the moment of a `TagMismatchError` the stack has already lost its top and
the popped node is not reattached: the state reached is the remainder
`rest`, not the original stack. -/
theorem C10_failed_close_already_popped :
    (∀ (node : VNode L E) rest endt, node.tag ≠ endt →
      child_to_parent (node :: rest) (some endt) =
        (rest, some (.tagMismatch node.tag endt))) ∧
    (child_to_parent [(VNode.new "div" : VNode Unit Unit)] (some "span") =
      ([], some (.tagMismatch "div" "span"))) := by
  refine ⟨?_, rfl⟩
  intro node rest endt h
  simp [child_to_parent, h]

/-- Witness for C10: mismatched close of the sole "div" node leaves the
empty stack in the error state. -/
theorem C10_failed_close_already_popped_witness :
    child_to_parent [(VNode.new "div" : VNode Unit Unit)] (some "ul") =
      ([], some (.tagMismatch "div" "ul")) :=
  C10_failed_close_already_popped.1 (VNode.new "div") [] "ul" (by decide)

/-- C1 counterexample: when the popped node was the sole stack element the
close pushes it back, so it is still the stack top and a subsequent
`add_child` (before any open or close) does change the popped node: its
children list gains the new child. -/
theorem C1_counterexample_root_still_mutable :
    close [(VNode.new "div" : VNode Unit Unit)] none = .ok [VNode.new "div"] ∧
    add_child [(VNode.new "div" : VNode Unit Unit)] (.external ()) =
      .ok [VNode.mk "div" [] [] none [] [.external ()]] ∧
    (VNode.mk "div" [] [] none [] [(.external () : Child Unit Unit)]).children ≠
      (VNode.new "div" : VNode Unit Unit).children := by
  refine ⟨rfl, rfl, ?_⟩
  simp [VNode.children, VNode.new]

/-- C1 amended: a successful `closeSelf` finalizes the popped node
whenever the remaining stack is non-empty — the popped node is attached to
the parent and any number of subsequent `addChild` calls before the next
open/close only append further children after it, leaving the popped node
itself (still equal to `node`) unmodified inside the parent's children. -/
theorem C1_amended_attached_node_final :
    ∀ (node parent : VNode L E) (rest : Stack L E) (cs : List (Child L E)),
      close (node :: parent :: rest) none =
        .ok (parent.add_child (.vnode node) :: rest) ∧
      ∃ top,
        add_children (parent.add_child (.vnode node) :: rest) cs =
          .ok (top :: rest) ∧
        top.children = parent.children ++ [Child.vnode node] ++ cs := by
  intro node parent rest cs
  refine ⟨rfl, ?_⟩
  obtain ⟨top, h1, h2⟩ := add_children_ok cs (parent.add_child (.vnode node)) rest
  exact ⟨top, h1, by rw [h2, VNode.children_add_child]⟩

/-- A freshly opened node counts as a single node. -/
theorem VNode.count_new (t : String) : (VNode.new t : VNode L E).count = 1 := by
  simp [VNode.new, VNode.count, countChildren]

/-- Child counts add up over list concatenation. -/
theorem countChildren_append (a b : List (Child L E)) :
    countChildren (a ++ b) = countChildren a + countChildren b := by
  induction a with
  | nil => simp [countChildren]
  | cons c cs ih => simp [countChildren, ih]; omega

/-- Overwriting the value leaves the node count unchanged. -/
theorem VNode.count_set_value (n : VNode L E) (v : String) :
    (n.set_value v).count = n.count := by
  cases n; simp [VNode.set_value, VNode.count]

/-- Inserting an attribute leaves the node count unchanged. -/
theorem VNode.count_add_attribute (n : VNode L E) (name v : String) :
    (n.add_attribute name v).count = n.count := by
  cases n; simp [VNode.add_attribute, VNode.count]

/-- Appending a class leaves the node count unchanged. -/
theorem VNode.count_add_classes (n : VNode L E) (c : String) :
    (n.add_classes c).count = n.count := by
  cases n; simp [VNode.add_classes, VNode.count]

/-- Appending a listener leaves the node count unchanged. -/
theorem VNode.count_add_listener (n : VNode L E) (l : L) :
    (n.add_listener l).count = n.count := by
  cases n; simp [VNode.add_listener, VNode.count]

/-- Appending a child adds that child's node count. -/
theorem VNode.count_add_child (n : VNode L E) (c : Child L E) :
    (n.add_child c).count = n.count + c.count := by
  cases n
  simp [VNode.add_child, VNode.count, countChildren_append, countChildren]
  omega

/-- The attach-or-retain step moves nodes but neither creates nor destroys
them: the summed node count is preserved. -/
theorem stackCount_attachOrKeep (node : VNode L E) (rest : Stack L E) :
    stackCount (attachOrKeep node rest) = node.count + stackCount rest := by
  cases rest with
  | nil => simp [attachOrKeep, stackCount]
  | cons parent r2 =>
    simp [attachOrKeep, stackCount, VNode.count_add_child, Child.count]
    omega

/-- A successful close on a non-empty stack yields the attach-or-retain
result. -/
theorem close_ok_shape (node : VNode L E) (rest : Stack L E)
    (endtag : Option String) (s' : Stack L E)
    (h : close (node :: rest) endtag = .ok s') :
    s' = attachOrKeep node rest := by
  cases endtag with
  | none => exact Except.ok.inj h.symm
  | some t =>
    by_cases ht : node.tag = t
    · rw [close_cons_some_eq node rest t ht] at h
      exact Except.ok.inj h.symm
    · rw [close_cons_some_ne node rest t ht] at h
      exact absurd h (by simp)

/-- `countOpens` splits off its head operation. -/
theorem countOpens_cons (op : Op L E) (ops : List (Op L E)) :
    countOpens (op :: ops) = countOpens [op] + countOpens ops := by
  cases op <;> simp [countOpens]

/-- One successful step changes the summed node count of the stack by
exactly the number of `open`s in it (one for `open`, zero otherwise),
provided an `addChild` step injects an external child. -/
theorem runOp_stackCount (op : Op L E) (s s2 : Stack L E)
    (hext : op.childExt = true) (h : runOp s op = .ok s2) :
    stackCount s2 = stackCount s + countOpens [op] := by
  cases op with
  | openTag t =>
    simp only [runOp, Except.ok.injEq] at h
    rw [← h]
    simp [stackCount, VNode.count_new, countOpens]
    omega
  | setValue v =>
    cases s with
    | nil => simp [runOp, set_value] at h
    | cons node rest =>
      simp only [runOp, set_value, Except.ok.injEq] at h
      rw [← h]; simp [stackCount, VNode.count_set_value, countOpens]
  | addAttribute n v =>
    cases s with
    | nil => simp [runOp, add_attribute] at h
    | cons node rest =>
      simp only [runOp, add_attribute, Except.ok.injEq] at h
      rw [← h]; simp [stackCount, VNode.count_add_attribute, countOpens]
  | addClass c =>
    cases s with
    | nil => simp [runOp, attach_class] at h
    | cons node rest =>
      simp only [runOp, attach_class, Except.ok.injEq] at h
      rw [← h]; simp [stackCount, VNode.count_add_classes, countOpens]
  | addListener l =>
    cases s with
    | nil => simp [runOp, attach_listener] at h
    | cons node rest =>
      simp only [runOp, attach_listener, Except.ok.injEq] at h
      rw [← h]; simp [stackCount, VNode.count_add_listener, countOpens]
  | addChild c =>
    cases c with
    | vnode n => simp [Op.childExt] at hext
    | external e =>
      cases s with
      | nil => simp [runOp, add_child] at h
      | cons node rest =>
        simp only [runOp, add_child, Except.ok.injEq] at h
        rw [← h]
        simp [stackCount, VNode.count_add_child, Child.count, countOpens]
  | closeSelf =>
    cases s with
    | nil => simp [runOp, close, child_to_parent] at h
    | cons node rest =>
      have hs2 := close_ok_shape node rest none s2 h
      rw [hs2]
      simp [stackCount, stackCount_attachOrKeep, countOpens]
  | closeTagged t =>
    cases s with
    | nil => simp [runOp, close, child_to_parent] at h
    | cons node rest =>
      have hs2 := close_ok_shape node rest (some t) s2 h
      rw [hs2]
      simp [stackCount, stackCount_attachOrKeep, countOpens]

/-- A successful run changes the summed node count by exactly the number
of `open`s, provided all `addChild` steps inject external children. -/
theorem runAll_stackCount :
    ∀ (ops : List (Op L E)) (s s' : Stack L E),
      ops.all Op.childExt = true → runAll s ops = .ok s' →
      stackCount s' = stackCount s + countOpens ops := by
  intro ops
  induction ops with
  | nil =>
    intro s s' _ h
    simp only [runAll, Except.ok.injEq] at h
    rw [← h]; simp [countOpens]
  | cons op ops ih =>
    intro s s' hall h
    rw [List.all_cons, Bool.and_eq_true] at hall
    simp only [runAll] at h
    cases hop : runOp s op with
    | error e => rw [hop] at h; exact absurd h (by simp)
    | ok s2 =>
      rw [hop] at h
      have h1 := runOp_stackCount op s s2 hall.1 hop
      have h2 := ih s2 s' hall.2 h
      rw [h2, h1]
      have h3 := countOpens_cons op ops
      omega

/-- A successful `unpack` forces a singleton stack. -/
theorem unpack_ok_shape (s : Stack L E) (root : VNode L E)
    (h : unpack s = .ok root) : s = [root] := by
  cases s with
  | nil => simp [unpack] at h
  | cons n rest =>
    cases rest with
    | nil => simp only [unpack, Except.ok.injEq] at h; rw [h]
    | cons m r2 => simp [unpack] at h

/-- C8 counterexample: the well-formed sequence `open("div")`;
`addChild(Node("span"))`; `closeSelf()` runs to a sole root and `finish`
returns it, but the tree has 2 nodes while only 1 `open` was issued — the
node injected through `addChild` breaks the claimed count equality. -/
theorem C8_counterexample_injected_node :
    runAll ([] : Stack Unit Unit)
        [Op.openTag "div", Op.addChild (.vnode (VNode.new "span")),
          Op.closeSelf] =
      .ok [VNode.mk "div" [] [] none [] [.vnode (VNode.new "span")]] ∧
    unpack [(VNode.mk "div" [] [] none [] [.vnode (VNode.new "span")] :
        VNode Unit Unit)] =
      .ok (VNode.mk "div" [] [] none [] [.vnode (VNode.new "span")]) ∧
    (VNode.mk "div" [] [] none [] [.vnode (VNode.new "span")] :
      VNode Unit Unit).count = 2 ∧
    countOpens [Op.openTag "div",
      Op.addChild ((.vnode (VNode.new "span")) : Child Unit Unit),
      Op.closeSelf] = 1 := by
  refine ⟨rfl, rfl, ?_, rfl⟩
  simp [VNode.count, countChildren, Child.count, VNode.new]

/-- C8 amended: for any operation sequence whose `addChild` steps all
inject external (non-node) children, if the run from the empty stack
succeeds and `finish` returns a root, the root's total node count equals
the number of `open` operations; and every mutation operation on a
non-empty stack succeeds rewriting exactly the stack-top node, leaving the
rest of the stack untouched. -/
theorem C8_amended_count_and_targets :
    (∀ (ops : List (Op L E)) (s : Stack L E) (root : VNode L E),
      ops.all Op.childExt = true →
      runAll [] ops = .ok s → unpack s = .ok root →
      root.count = countOpens ops) ∧
    (∀ (op : Op L E) (node : VNode L E) (rest : Stack L E),
      op.isMutation = true →
      ∃ node', runOp (node :: rest) op = .ok (node' :: rest)) := by
  constructor
  · intro ops s root hall hrun hun
    have hs := unpack_ok_shape s root hun
    subst hs
    have hc := runAll_stackCount ops [] [root] hall hrun
    simpa [stackCount] using hc
  · intro op node rest hm
    cases op with
    | setValue v => exact ⟨node.set_value v, rfl⟩
    | addAttribute n v => exact ⟨node.add_attribute n v, rfl⟩
    | addClass c => exact ⟨node.add_classes c, rfl⟩
    | addListener l => exact ⟨node.add_listener l, rfl⟩
    | addChild c => exact ⟨node.add_child c, rfl⟩
    | openTag t => simp [Op.isMutation] at hm
    | closeSelf => simp [Op.isMutation] at hm
    | closeTagged t => simp [Op.isMutation] at hm

/-- Witness for C8 amended: `open("div")`; `closeSelf()` builds a
one-node tree from one `open`, and a `setValue` on a singleton stack
rewrites only its top. -/
theorem C8_amended_count_and_targets_witness :
    (VNode.new "div" : VNode Unit Unit).count =
      countOpens [Op.openTag "div", (Op.closeSelf : Op Unit Unit)] ∧
    ∃ node', runOp [(VNode.new "p" : VNode Unit Unit)] (Op.setValue "x") =
      .ok [node'] :=
  ⟨C8_amended_count_and_targets.1 [Op.openTag "div", Op.closeSelf]
      [VNode.new "div"] (VNode.new "div") rfl rfl rfl,
   C8_amended_count_and_targets.2 (Op.setValue "x") (VNode.new "p") [] rfl⟩

end Yew
